import Mathlib

/-!
Verification of the build-and-push orchestrator in
`pkg/skaffold/docker/image.go` (package `docker`).

The Go file is embedded shallowly:

* Go strings are Lean `String`s; byte-level details do not matter for the
  properties proved here.
* The external collaborators (the credential helper, `os.Open`, the
  Dockerfile dependency parser, the archiver and the daemon RPCs) are
  fields of an environment record, so every theorem quantifies over their
  behaviour.  Go's `(value, error)` pairs become `Except String α` when
  the caller checks the error, and a literal pair `α × Option String`
  when — as for `GetDockerfileDependencies` inside `RunBuild` — the
  source discards the error component.
* Each daemon RPC issued by an operation is recorded in an explicit
  trace, so "no daemon call is made" is a provable statement.
-/

namespace SkaffoldDocker

/-- Message composition of `errors.Wrap(err, msg)` from github.com/pkg/errors:
the resulting error message is `msg + ": " + err`. -/
def wrap (msg e : String) : String := msg ++ ": " ++ e

/-- Go `strings.TrimPrefix(s, pre)`: remove `pre` from the front of `s`
when it is a prefix, otherwise return `s` unchanged. -/
def trimPrefix (s pre : String) : String :=
  if pre.data.isPrefixOf s.data then String.mk (s.data.drop pre.data.length) else s

/-- Go `filepath.Join(a, b)` for the use in `RunBuild`: the two components
joined by the path separator (cleaning is irrelevant to the properties
proved here, the result is only passed to the opaque file opener). -/
def filepathJoin (a b : String) : String := a ++ "/" ++ b

/-- `idtools.IDPair` — the owner forced onto archive entries. -/
structure IDPair where
  uid : Nat
  gid : Nat
deriving DecidableEq, Repr

/-- The fields of `archive.TarOptions` that `RunBuild` sets. -/
structure TarOptions where
  chownOpts : Option IDPair
  includeFiles : List String
deriving DecidableEq, Repr

/-- One entry of the produced build-context archive: its name inside the
archive and the owner recorded for it. -/
structure TarEntry where
  name : String
  uid : Nat
  gid : Nat
deriving DecidableEq, Repr

/-- The build-context archive, as the ordered list of its entries. -/
abbrev Archive := List TarEntry

/-- Per-registry credential bundles (`map[string]types.AuthConfig`),
modelled as an association list from registry host to credential data. -/
abbrev AuthConfigs := List (String × String)

/-- `types.ImageBuildOptions` — the fields `RunBuild` fills in. -/
structure ImageBuildOptions where
  tags : List String
  dockerfile : String
  buildArgs : List (String × Option String)
  authConfigs : AuthConfigs
deriving DecidableEq, Repr

/-- `BuildOptions` from image.go.  The two writer sinks (`ProgressBuf`,
`BuildBuf`) are not inputs of the pure model; the text an operation
writes to the build-log sink is returned in `RunResult.buildLog`. -/
structure BuildOptions where
  imageName : String
  dockerfile : String
  contextDir : String
  buildArgs : List (String × Option String)
deriving DecidableEq, Repr

/-- One decoded unit of the daemon's JSON event stream: a progress update
or a terminal error message. -/
inductive StatusEvent where
  | progress (id text : String)
  | error (msg : String)
deriving DecidableEq, Repr

/-- Whether a status event is the terminal error variant. -/
def StatusEvent.isError : StatusEvent → Bool
  | .progress _ _ => false
  | .error _ => true

/-- Modelled from the spec: the relay "renders each progress update to the
build-log sink"; the concrete text of one rendered line (the rendering
itself lives in the external `jsonmessage` package). -/
def renderEvent : StatusEvent → String
  | .progress i t => i ++ " " ++ t
  | .error m => m

/-- Modelled from the spec: `jsonmessage.DisplayJSONMessagesStream` (an
external collaborator) "consumes the ordered daemon event stream and
renders each progress update to the build-log sink in arrival order"; "if
the stream yields a terminal error event, the relay stops consuming
further input and returns that error as the overall operation's failure —
partial output already written to the sink is not rolled back"; "end of
stream with no error event is success". -/
def displayJSONMessagesStream (sink : List String) :
    List StatusEvent → Except String Unit × List String
  | [] => (.ok (), sink)
  | .progress i t :: rest =>
      displayJSONMessagesStream (sink ++ [renderEvent (.progress i t)]) rest
  | .error m :: _ => (.error m, sink)

/-- `streamDockerMessages(dst, src)` from image.go: it obtains the sink's
file descriptor and delegates to `DisplayJSONMessagesStream` with
`isTerminal` hard-coded to `false` (plain line output). -/
def streamDockerMessages (sink : List String) (src : List StatusEvent) :
    Except String Unit × List String :=
  displayJSONMessagesStream sink src

/-- A record of one RPC issued to the image daemon. -/
inductive DaemonCall where
  | imageBuild (buildCtx : Archive) (opts : ImageBuildOptions)
  | imagePush (ref : String) (registryAuth : String)
  | imageList (filterValue : String)
deriving DecidableEq, Repr

deriving instance DecidableEq for Except

/-- The observable outcome of `RunBuild` / `RunPush`: the returned error
value, the daemon RPCs issued, and the lines written to the build-log
sink. -/
structure RunResult where
  result : Except String Unit
  daemonCalls : List DaemonCall
  buildLog : List String
deriving DecidableEq, Repr

/-- The external collaborators `RunBuild` uses, as data:

* `getAllAuthConfigs` — `DefaultAuthHelper.GetAllAuthConfigs()`;
* `openDockerfile` — `os.Open` on the joined Dockerfile path, yielding
  the opened file's content;
* `getDockerfileDependencies` — the external parser; a Go function
  returning `([]string, error)`, so the model returns the literal pair —
  image.go reads only the first component;
* `tarWithOptions` — `archive.TarWithOptions(contextDir, opts)`;
* `imageBuild` — `cli.ImageBuild`, yielding the response body as the
  decoded event stream on success. -/
structure BuildEnv where
  getAllAuthConfigs : Except String AuthConfigs
  openDockerfile : String → Except String String
  getDockerfileDependencies : String → String → List String × Option String
  tarWithOptions : String → TarOptions → Except String Archive
  imageBuild : Archive → ImageBuildOptions → Except String (List StatusEvent)

/-- `RunBuild` from image.go, line for line:

1. resolve all auth configs (failure wrapped "read auth configs");
2. build `ImageBuildOptions` with `Tags = [ImageName]`, the Dockerfile
   path and the build args;
3. open the Dockerfile (failure wrapped "opening dockerfile");
4. ask the parser for the dependency paths — the error result of this
   call is NOT examined by the source: the next statement overwrites
   `err` with the archiver's error;
5. trim the context-directory prefix from every dependency path;
6. archive the context with `ChownOpts = {UID: 0, GID: 0}` and
   `IncludeFiles = paths + [Dockerfile]` (failure wrapped
   "tar workspace");
7. submit the build (failure wrapped "docker build");
8. relay the daemon's event stream to the build-log sink. -/
def RunBuild (env : BuildEnv) (opts : BuildOptions) : RunResult :=
  match env.getAllAuthConfigs with
  | .error e => ⟨.error (wrap "read auth configs" e), [], []⟩
  | .ok authConfigs =>
    let imageBuildOpts : ImageBuildOptions :=
      ⟨[opts.imageName], opts.dockerfile, opts.buildArgs, authConfigs⟩
    let dockerfilePath := filepathJoin opts.contextDir opts.dockerfile
    match env.openDockerfile dockerfilePath with
    | .error e => ⟨.error (wrap "opening dockerfile" e), [], []⟩
    | .ok f =>
      let depsAndErr := env.getDockerfileDependencies opts.contextDir f
      let paths := depsAndErr.1.map (fun p => trimPrefix p opts.contextDir)
      match env.tarWithOptions opts.contextDir
          ⟨some ⟨0, 0⟩, paths ++ [opts.dockerfile]⟩ with
      | .error e => ⟨.error (wrap "tar workspace" e), [], []⟩
      | .ok buildCtx =>
        match env.imageBuild buildCtx imageBuildOpts with
        | .error e =>
            ⟨.error (wrap "docker build" e),
             [.imageBuild buildCtx imageBuildOpts], []⟩
        | .ok respBody =>
            let s := streamDockerMessages [] respBody
            ⟨s.1, [.imageBuild buildCtx imageBuildOpts], s.2⟩

/-- The external collaborators `RunPush` uses:

* `encodedRegistryAuth` — the repository's per-reference auth resolution
  (its body lives outside image.go; it yields the base64-encoded
  credential bundle for the reference's registry);
* `imagePush` — `cli.ImagePush` with the reference and the registry
  auth, yielding the decoded event stream on success. -/
structure PushEnv where
  encodedRegistryAuth : String → Except String String
  imagePush : String → String → Except String (List StatusEvent)

/-- `RunPush` from image.go: resolve the reference's registry auth
(failure wrapped "getting auth config for <ref>"), submit the push
(failure wrapped "pushing image to repository"), relay the stream. -/
def RunPush (env : PushEnv) (ref : String) : RunResult :=
  match env.encodedRegistryAuth ref with
  | .error e => ⟨.error (wrap ("getting auth config for " ++ ref) e), [], []⟩
  | .ok registryAuth =>
    match env.imagePush ref registryAuth with
    | .error e =>
        ⟨.error (wrap "pushing image to repository" e),
         [.imagePush ref registryAuth], []⟩
    | .ok rc =>
        let s := streamDockerMessages [] rc
        ⟨s.1, [.imagePush ref registryAuth], s.2⟩

/-- One element of the daemon's image-list answer (`types.ImageSummary`):
the image identifier and its repo tags. -/
structure Image where
  id : String
  repoTags : List String
deriving DecidableEq, Repr

/-- The scanning loop of `Digest`: `for _, image := range imageList {
for _, tag := range image.RepoTags { if tag == refLatest { return
image.ID } } }` followed by `return ""` — the identifier of the first
image one of whose repo tags equals `refLatest`, else the empty string. -/
def scanImages (refLatest : String) : List Image → String
  | [] => ""
  | img :: rest =>
      if img.repoTags.contains refLatest then img.id
      else scanImages refLatest rest

/-- `Digest` from image.go, against an image-list RPC given as data
(`listImages` is `cli.ImageList` applied to a reference filter with the
given value).  Appends ":latest" to the reference, queries the daemon
with that filter (failure wrapped "getting image id"), then scans the
answer for an exact tag match.  The second component records the daemon
RPC issued. -/
def Digest (listImages : String → Except String (List Image)) (ref : String) :
    Except String String × List DaemonCall :=
  let refLatest := ref ++ ":latest"
  match listImages refLatest with
  | .error e => (.error (wrap "getting image id" e), [.imageList refLatest])
  | .ok imageList => (.ok (scanImages refLatest imageList), [.imageList refLatest])

/-- Modelled from the spec: the daemon's "List images" RPC ("input =
tag filter; output = list of id, repoTags") answered from a fixed image
index — it keeps the images one of whose repo tags equals the filter
value. -/
def listEnv (index : List Image) : String → Except String (List Image) :=
  fun filterValue => .ok (index.filter (fun img => img.repoTags.contains filterValue))

/-- The daemon's observable state for the read path: its image index,
plus a flag making the list RPC fail (daemon unreachable). -/
structure DaemonState where
  images : List Image
  unreachable : Bool
deriving DecidableEq, Repr

/-- Modelled from the spec: the image-list RPC as a state transition — a
read-only query of the index that leaves the daemon state unchanged (or
a failure when the daemon is unreachable). -/
def imageListS (s : DaemonState) (filterValue : String) :
    Except String (List Image) × DaemonState :=
  if s.unreachable then (.error "daemon unreachable", s)
  else (.ok (s.images.filter (fun img => img.repoTags.contains filterValue)), s)

/-- `Digest` threaded through the stateful daemon model: the same source
logic as `Digest`, with the daemon state passed explicitly so that
sequential lookups can be stated. -/
def DigestS (s : DaemonState) (ref : String) :
    Except String String × DaemonState :=
  let refLatest := ref ++ ":latest"
  match imageListS s refLatest with
  | (.error e, s1) => (.error (wrap "getting image id" e), s1)
  | (.ok imageList, s1) => (.ok (scanImages refLatest imageList), s1)

/-- The archive-entry name the external archiver derives from one include
file: the include is resolved beneath the source path
(`filepath.Join(srcPath, include)`, which strips a leading separator)
and the entry is named relative to the source path. -/
def relName (inc : String) : String :=
  match inc.data with
  | '/' :: rest => String.mk rest
  | _ => inc

/-- Modelled from the spec: `archive.TarWithOptions` is an external
collaborator (the moby archive package, outside this file); the spec's
Context Builder it serves "produces an archive containing exactly those
paths plus the Dockerfile, with ownership metadata normalized".  `fs` is
the set of paths (relative to the source path) that exist beneath it.
Each include file is resolved beneath the source path; an include file
matching nothing that exists is skipped with a warning log, not an
error — the archiver's documented behaviour.  Every produced entry's
owner is the configured `ChownOpts` pair. -/
def tarWithOptionsModel (fs : List String) (opts : TarOptions) :
    Except String Archive :=
  .ok (opts.includeFiles.filterMap (fun inc =>
    let r := relName inc
    if fs.contains r then
      some ⟨r, ((opts.chownOpts.map IDPair.uid).getD 0),
            ((opts.chownOpts.map IDPair.gid).getD 0)⟩
    else none))

/-- Trimming a string's own prefix from a concatenation leaves the rest. -/
theorem trimPrefix_append (a b : String) : trimPrefix (a ++ b) a = b := by
  unfold trimPrefix
  rw [String.data_append]
  rw [if_pos]
  · rw [List.drop_left]
  · simp [List.isPrefixOf_iff_prefix]

/-- The archive-entry name of a slash-prefixed relative path is the path
itself. -/
theorem relName_slash (d : String) : relName ("/" ++ d) = d := by
  unfold relName
  rw [String.data_append]
  show (match '/' :: d.data with
    | '/' :: rest => String.mk rest
    | _ => ("/" ++ d : String)) = d
  cases d
  rfl

/-- Appending ":latest" always changes the reference (the two strings
have different lengths). -/
theorem append_latest_ne (ref : String) : ref ++ ":latest" ≠ ref := by
  intro h
  have hd : (ref ++ ":latest").data = ref.data := congrArg String.data h
  rw [String.data_append] at hd
  have hlen := congrArg List.length hd
  rw [List.length_append] at hlen
  simp at hlen

/-- Scanning the daemon-filtered index finds the same identifier as
scanning the whole index: the filter removes only non-matching images. -/
theorem scanImages_filter (r : String) (l : List Image) :
    scanImages r (l.filter (fun img => img.repoTags.contains r)) =
      scanImages r l := by
  induction l with
  | nil => rfl
  | cons img rest ih =>
    rw [List.filter_cons]
    by_cases h : img.repoTags.contains r = true
    · rw [if_pos h, scanImages, if_pos h, scanImages, if_pos h]
    · rw [if_neg h, ih, scanImages, if_neg h]

/-- The scan returns the identifier of the first image carrying the tag,
when one exists. -/
theorem scanImages_find (r : String) (l : List Image) (img : Image)
    (h : l.find? (fun i => i.repoTags.contains r) = some img) :
    scanImages r l = img.id := by
  induction l with
  | nil => simp [List.find?] at h
  | cons hd tl ih =>
    rw [List.find?] at h
    by_cases hhd : hd.repoTags.contains r
    · rw [hhd] at h
      simp at h
      rw [scanImages, if_pos hhd, h]
    · simp only [Bool.not_eq_true] at hhd
      rw [hhd] at h
      rw [scanImages]
      simp only [hhd]
      exact ih h

/-- When no image carries the tag, the scan returns the empty string. -/
theorem scanImages_none (r : String) (l : List Image)
    (h : ∀ img ∈ l, img.repoTags.contains r = false) :
    scanImages r l = "" := by
  induction l with
  | nil => rfl
  | cons hd tl ih =>
    rw [scanImages, if_neg (by rw [h hd (by simp)]; simp)]
    exact ih (fun img hm => h img (by simp [hm]))

/-- Relaying a stream whose first error event follows a run of progress
events yields that error, with exactly the preceding progress renderings
appended to the sink. -/
theorem displayJSON_error (sink : List String) (ps : List StatusEvent)
    (m : String) (rest : List StatusEvent)
    (hp : ∀ ev ∈ ps, ev.isError = false) :
    displayJSONMessagesStream sink (ps ++ .error m :: rest) =
      (.error m, sink ++ ps.map renderEvent) := by
  induction ps generalizing sink with
  | nil => simp [displayJSONMessagesStream]
  | cons ev tl ih =>
    cases ev with
    | progress i t =>
      rw [List.cons_append, displayJSONMessagesStream,
        ih _ (fun e he => hp e (by simp [he]))]
      simp
    | error m2 =>
      have := hp (.error m2) (by simp)
      simp [StatusEvent.isError] at this

/-- A `filterMap` that succeeds pointwise is a `map`. -/
theorem filterMap_eq_map_of_forall {α β : Type} (g : α → Option β)
    (h : α → β) (l : List α) (hl : ∀ a ∈ l, g a = some (h a)) :
    l.filterMap g = l.map h := by
  induction l with
  | nil => rfl
  | cons x xs ih =>
    rw [List.filterMap_cons, hl x (by simp), List.map_cons,
      ih (fun a ha => hl a (by simp [ha]))]

/-- A one-file context used to exhibit the unchecked dependency-parser
error: only the Dockerfile exists beneath the context directory. -/
def fsC1 : List String := ["Dockerfile"]

/-- Environment in which every collaborator succeeds except the
dependency parser, which reports an error (alongside an empty path
list, as the Go parser does on failure). -/
def envC1 : BuildEnv :=
  ⟨.ok [],
   fun _ => .ok "FROM scratch",
   fun _ _ => ([], some "parsing dockerfile for dependencies failed"),
   fun _ topts => tarWithOptionsModel fsC1 topts,
   fun _ _ => .ok []⟩

/-- The build options used by the concrete runs below. -/
def optsC1 : BuildOptions := ⟨"img", "Dockerfile", "/ctx", []⟩

/-- Claim C1: when the dependency parser returns an error, `RunBuild` is
claimed to fail with a wrapped dependency-resolution error and make no
daemon call.  The source never examines that error (`err` is overwritten
by the next assignment): in the environment where only the parser fails,
`RunBuild` succeeds and the daemon build call IS made. -/
theorem C1_dependency_error_ignored :
    (envC1.getDockerfileDependencies "/ctx" "FROM scratch").2 =
        some "parsing dockerfile for dependencies failed" ∧
    (RunBuild envC1 optsC1).result = .ok () ∧
    (RunBuild envC1 optsC1).daemonCalls =
      [DaemonCall.imageBuild [⟨"Dockerfile", 0, 0⟩]
        ⟨["img"], "Dockerfile", [], []⟩] := by
  refine ⟨rfl, ?_, ?_⟩ <;> rfl

/-- Context for the outside-path run: again only the Dockerfile exists
beneath the context directory. -/
def fsC2 : List String := ["Dockerfile"]

/-- Environment in which the dependency parser succeeds but reports a
path lying outside the context directory. -/
def envC2 : BuildEnv :=
  ⟨.ok [],
   fun _ => .ok "FROM scratch",
   fun _ _ => (["/elsewhere/secret.txt"], none),
   fun _ topts => tarWithOptionsModel fsC2 topts,
   fun _ _ => .ok []⟩

/-- The build options used by the outside-path run. -/
def optsC2 : BuildOptions := ⟨"img", "Dockerfile", "/ctx", []⟩

/-- Claim C2: a dependency path resolving outside the context directory
is claimed to make context assembly fail.  The source performs no such
check: the prefix trim leaves the outside path unchanged, the archiver
resolves it beneath the context root, finds nothing and skips it, and
`RunBuild` succeeds with an archive not containing the path — the path
is silently dropped. -/
theorem C2_outside_path_silently_dropped :
    trimPrefix "/elsewhere/secret.txt" "/ctx" = "/elsewhere/secret.txt" ∧
    (RunBuild envC2 optsC2).result = .ok () ∧
    (RunBuild envC2 optsC2).daemonCalls =
      [DaemonCall.imageBuild [⟨"Dockerfile", 0, 0⟩]
        ⟨["img"], "Dockerfile", [], []⟩] := by
  refine ⟨?_, ?_, ?_⟩ <;> rfl

/-- Claim C7: an auth-resolution failure (all-configs for build,
per-reference for push) yields the distinctly wrapped error and an empty
daemon-call trace: the operation aborts before any daemon call, with no
anonymous fallback attempt. -/
theorem C7_auth_failure_aborts
    (benv : BuildEnv) (opts : BuildOptions) (e1 : String)
    (penv : PushEnv) (ref e2 : String)
    (h1 : benv.getAllAuthConfigs = .error e1)
    (h2 : penv.encodedRegistryAuth ref = .error e2) :
    RunBuild benv opts =
      ⟨.error ("read auth configs: " ++ e1), [], []⟩ ∧
    RunPush penv ref =
      ⟨.error ("getting auth config for " ++ ref ++ ": " ++ e2), [], []⟩ := by
  constructor
  · unfold RunBuild
    rw [h1]
    rfl
  · unfold RunPush
    rw [h2]
    simp [wrap]

/-- Claim C7 witness at a concrete failing credential store. -/
theorem C7_witness :
    RunBuild ⟨.error "store unreachable", fun _ => .ok "", fun _ _ => ([], none),
        fun _ _ => .ok [], fun _ _ => .ok []⟩ optsC1 =
      ⟨.error ("read auth configs: " ++ "store unreachable"), [], []⟩ ∧
    RunPush ⟨fun _ => .error "no helper", fun _ _ => .ok []⟩ "gcr.io/img" =
      ⟨.error ("getting auth config for " ++ "gcr.io/img" ++ ": " ++ "no helper"),
       [], []⟩ :=
  C7_auth_failure_aborts _ optsC1 "store unreachable" _ "gcr.io/img" "no helper"
    rfl rfl

/-- Claim C9: the digest read path is idempotent — a lookup leaves the
daemon state unchanged, so a second lookup against the resulting state
returns the same answer. -/
theorem C9_digest_idempotent (s : DaemonState) (ref : String) :
    (DigestS ((DigestS s ref).2) ref).1 = (DigestS s ref).1 ∧
    (DigestS s ref).2 = s := by
  unfold DigestS imageListS
  by_cases h : s.unreachable <;> simp [h]

/-- Claim C5: against an index in which some image carries the exact repo
tag "myimage:latest", `Digest` called with "myimage" returns the first
such image's identifier and no error; against an index in which no image
carries that tag, it returns the empty string and no error. -/
theorem C5_digest_latest_lookup (index : List Image) :
    (∀ img, index.find? (fun i => i.repoTags.contains "myimage:latest") = some img →
      (Digest (listEnv index) "myimage").1 = .ok img.id) ∧
    ((∀ img ∈ index, img.repoTags.contains "myimage:latest" = false) →
      (Digest (listEnv index) "myimage").1 = .ok "") := by
  have hlit : ("myimage" ++ ":latest" : String) = "myimage:latest" := rfl
  constructor
  · intro img hfind
    unfold Digest listEnv
    simp only [hlit]
    rw [scanImages_filter]
    rw [scanImages_find "myimage:latest" index img hfind]
  · intro hnone
    unfold Digest listEnv
    simp only [hlit]
    rw [scanImages_filter]
    rw [scanImages_none "myimage:latest" index hnone]

/-- Claim C5 witness: a two-image index whose second image carries
"myimage:latest", and an index carrying only other tags. -/
theorem C5_witness :
    (Digest (listEnv [⟨"sha256:aaa", ["other:latest"]⟩,
        ⟨"sha256:bbb", ["myimage:latest"]⟩]) "myimage").1 = .ok "sha256:bbb" ∧
    (Digest (listEnv [⟨"sha256:aaa", ["other:latest"]⟩]) "myimage").1 = .ok "" :=
  ⟨(C5_digest_latest_lookup [⟨"sha256:aaa", ["other:latest"]⟩,
      ⟨"sha256:bbb", ["myimage:latest"]⟩]).1 ⟨"sha256:bbb", ["myimage:latest"]⟩
      (by decide),
   (C5_digest_latest_lookup [⟨"sha256:aaa", ["other:latest"]⟩]).2 (by decide)⟩

/-- Claim C6: `Digest` always queries the daemon with the filter value
`ref ++ ":latest"` (so an untagged reference is normalized to its
latest form); that filter value never equals the reference itself, so a
reference already carrying a non-latest tag never finds an image bearing
exactly that tag. -/
theorem C6_digest_filter_appends_latest
    (listImages : String → Except String (List Image)) (ref : String) :
    (Digest listImages ref).2 = [.imageList (ref ++ ":latest")] ∧
    ref ++ ":latest" ≠ ref ∧
    (∀ index, (∀ img ∈ index, img.repoTags = [ref]) →
      (Digest (listEnv index) ref).1 = .ok "") := by
  refine ⟨?_, append_latest_ne ref, ?_⟩
  · unfold Digest
    cases h : listImages (ref ++ ":latest") <;> simp [h]
  · intro index htags
    unfold Digest listEnv
    simp only
    rw [scanImages_filter]
    rw [scanImages_none]
    intro img hmem
    rw [htags img hmem]
    simp only [List.contains_cons, List.contains_nil, Bool.or_false]
    exact beq_eq_false_iff_ne.mpr (append_latest_ne ref)

/-- Claim C6 witness: the reference "myimage:v2" queries with filter
"myimage:v2:latest" and never finds the image tagged "myimage:v2". -/
theorem C6_witness :
    (Digest (listEnv [⟨"sha256:ccc", ["myimage:v2"]⟩]) "myimage:v2").2 =
      [DaemonCall.imageList "myimage:v2:latest"] ∧
    (Digest (listEnv [⟨"sha256:ccc", ["myimage:v2"]⟩]) "myimage:v2").1 = .ok "" :=
  ⟨(C6_digest_filter_appends_latest (listEnv [⟨"sha256:ccc", ["myimage:v2"]⟩])
      "myimage:v2").1,
   (C6_digest_filter_appends_latest (listEnv [⟨"sha256:ccc", ["myimage:v2"]⟩])
      "myimage:v2").2.2 [⟨"sha256:ccc", ["myimage:v2"]⟩] (by decide)⟩

/-- Claim C8: a failing image-list query makes `Digest` return the error
wrapped with "getting image id", distinct from the not-found case, which
is the empty string with no error. -/
theorem C8_list_failure_wrapped_error (e ref : String) (index : List Image)
    (hnone : ∀ img ∈ index, img.repoTags.contains (ref ++ ":latest") = false) :
    (Digest (fun _ => .error e) ref).1 = .error ("getting image id: " ++ e) ∧
    (Digest (listEnv index) ref).1 = .ok "" ∧
    (Except.error ("getting image id: " ++ e) : Except String String) ≠ .ok "" := by
  refine ⟨?_, ?_, by simp⟩
  · unfold Digest
    simp [wrap]
  · unfold Digest listEnv
    simp only
    rw [scanImages_filter, scanImages_none _ _ hnone]

/-- Claim C8 witness at a concrete daemon failure and a concrete
non-matching index. -/
theorem C8_witness :
    (Digest (fun _ => .error "connection refused") "myimage").1 =
      .error ("getting image id: " ++ "connection refused") ∧
    (Digest (listEnv [⟨"sha256:aaa", ["other:latest"]⟩]) "myimage").1 = .ok "" ∧
    (Except.error ("getting image id: " ++ "connection refused") :
        Except String String) ≠ .ok "" :=
  C8_list_failure_wrapped_error "connection refused" "myimage"
    [⟨"sha256:aaa", ["other:latest"]⟩] (by decide)

/-- Claim C10: any build request that reaches the daemon carries exactly
one tag — the image name from the build options — and the Dockerfile
path and build arguments unchanged. -/
theorem C10_build_request_fields
    (env : BuildEnv) (opts : BuildOptions) (buildCtx : Archive)
    (bopts : ImageBuildOptions)
    (h : DaemonCall.imageBuild buildCtx bopts ∈ (RunBuild env opts).daemonCalls) :
    bopts.tags = [opts.imageName] ∧ bopts.dockerfile = opts.dockerfile ∧
      bopts.buildArgs = opts.buildArgs := by
  simp only [RunBuild] at h
  split at h
  · simp at h
  · split at h
    · simp at h
    · split at h
      · simp at h
      · split at h <;>
        · simp at h
          rw [h.2]
          exact ⟨rfl, rfl, rfl⟩

/-- Claim C10 witness: in the all-succeeding environment of the C1 run,
the single daemon call carries the expected fields. -/
theorem C10_witness :
    (⟨["img"], "Dockerfile", [], []⟩ : ImageBuildOptions).tags =
        [optsC1.imageName] ∧
    (⟨["img"], "Dockerfile", [], []⟩ : ImageBuildOptions).dockerfile =
        optsC1.dockerfile ∧
    (⟨["img"], "Dockerfile", [], []⟩ : ImageBuildOptions).buildArgs =
        optsC1.buildArgs :=
  C10_build_request_fields envC1 optsC1 [⟨"Dockerfile", 0, 0⟩]
    ⟨["img"], "Dockerfile", [], []⟩ (by decide)

/-- Claim C4: when the daemon's event stream yields a terminal error
event after any number of progress events, both `RunBuild` and `RunPush`
return that error as the operation's result, and the sink keeps exactly
the progress output already written (nothing rolled back). -/
theorem C4_stream_error_propagates
    (benv : BuildEnv) (opts : BuildOptions) (penv : PushEnv) (ref : String)
    (ps : List StatusEvent) (m : String) (rest : List StatusEvent)
    (ac : AuthConfigs) (f : String) (buildCtx : Archive) (ra : String)
    (hp : ∀ ev ∈ ps, ev.isError = false)
    (hauth : benv.getAllAuthConfigs = .ok ac)
    (hopen : benv.openDockerfile (filepathJoin opts.contextDir opts.dockerfile) =
        .ok f)
    (htar : benv.tarWithOptions opts.contextDir
        ⟨some ⟨0, 0⟩,
         ((benv.getDockerfileDependencies opts.contextDir f).1.map
            (fun p => trimPrefix p opts.contextDir)) ++ [opts.dockerfile]⟩ =
        .ok buildCtx)
    (hbuild : benv.imageBuild buildCtx
        ⟨[opts.imageName], opts.dockerfile, opts.buildArgs, ac⟩ =
        .ok (ps ++ .error m :: rest))
    (hpauth : penv.encodedRegistryAuth ref = .ok ra)
    (hpush : penv.imagePush ref ra = .ok (ps ++ .error m :: rest)) :
    (RunBuild benv opts).result = .error m ∧
    (RunBuild benv opts).buildLog = ps.map renderEvent ∧
    (RunPush penv ref).result = .error m ∧
    (RunPush penv ref).buildLog = ps.map renderEvent := by
  have hs : streamDockerMessages [] (ps ++ .error m :: rest) =
      (.error m, ps.map renderEvent) := by
    rw [streamDockerMessages, displayJSON_error [] ps m rest hp]
    simp
  simp only [RunBuild, RunPush, hauth, hopen, htar, hbuild, hpauth, hpush, hs]
  exact ⟨trivial, trivial, trivial, trivial⟩

/-- Claim C4 witness: a stream of two progress events followed by a
terminal error, fed to both operations through concrete environments. -/
theorem C4_witness :
    (RunBuild
      ⟨.ok [], fun _ => .ok "FROM scratch", fun _ _ => ([], none),
       fun _ _ => .ok [],
       fun _ _ => .ok [.progress "s1" "pulling", .progress "s2" "extracting",
         .error "build failed"]⟩
      ⟨"img", "Dockerfile", "/ctx", []⟩).result = .error "build failed" ∧
    (RunBuild
      ⟨.ok [], fun _ => .ok "FROM scratch", fun _ _ => ([], none),
       fun _ _ => .ok [],
       fun _ _ => .ok [.progress "s1" "pulling", .progress "s2" "extracting",
         .error "build failed"]⟩
      ⟨"img", "Dockerfile", "/ctx", []⟩).buildLog =
      [StatusEvent.progress "s1" "pulling",
       StatusEvent.progress "s2" "extracting"].map renderEvent ∧
    (RunPush
      ⟨fun _ => .ok "auth",
       fun _ _ => .ok [.progress "s1" "pulling", .progress "s2" "extracting",
         .error "build failed"]⟩ "gcr.io/img").result = .error "build failed" ∧
    (RunPush
      ⟨fun _ => .ok "auth",
       fun _ _ => .ok [.progress "s1" "pulling", .progress "s2" "extracting",
         .error "build failed"]⟩ "gcr.io/img").buildLog =
      [StatusEvent.progress "s1" "pulling",
       StatusEvent.progress "s2" "extracting"].map renderEvent :=
  C4_stream_error_propagates
    ⟨.ok [], fun _ => .ok "FROM scratch", fun _ _ => ([], none),
     fun _ _ => .ok [],
     fun _ _ => .ok [.progress "s1" "pulling", .progress "s2" "extracting",
       .error "build failed"]⟩
    ⟨"img", "Dockerfile", "/ctx", []⟩
    ⟨fun _ => .ok "auth",
     fun _ _ => .ok [.progress "s1" "pulling", .progress "s2" "extracting",
       .error "build failed"]⟩ "gcr.io/img"
    [.progress "s1" "pulling", .progress "s2" "extracting"] "build failed" []
    [] "FROM scratch" [] "auth"
    (by decide) rfl rfl rfl rfl rfl rfl

/-- Environment for the counterexample to claim C3 as stated: the parser
lists a single dependency path that resolves beneath the context
directory but to no existing file (only the Dockerfile exists). -/
def envC3cex : BuildEnv :=
  ⟨.ok [],
   fun _ => .ok "FROM scratch",
   fun _ _ => (["/ctx/missing.txt"], none),
   fun _ topts => tarWithOptionsModel ["Dockerfile"] topts,
   fun _ _ => .ok []⟩

/-- The build options used by the C3 counterexample run. -/
def optsC3cex : BuildOptions := ⟨"img", "Dockerfile", "/ctx", []⟩

/-- Claim C3, counterexample to the unrestricted statement: with the
listed dependency path "/ctx/missing.txt" (relative to the context
root: "missing.txt") naming no existing file, `RunBuild` succeeds and
the archive handed to the daemon holds only the Dockerfile — the listed
path is omitted, so the archive does not contain exactly the Dockerfile
plus the listed paths. -/
theorem C3_claim_counterexample :
    (envC3cex.getDockerfileDependencies "/ctx" "FROM scratch").1 =
        ["/ctx/missing.txt"] ∧
    trimPrefix "/ctx/missing.txt" "/ctx" = "/missing.txt" ∧
    (RunBuild envC3cex optsC3cex).result = .ok () ∧
    (RunBuild envC3cex optsC3cex).daemonCalls =
      [DaemonCall.imageBuild [⟨"Dockerfile", 0, 0⟩]
        ⟨["img"], "Dockerfile", [], []⟩] ∧
    (∀ entry ∈ ([⟨"Dockerfile", 0, 0⟩] : Archive), entry.name ≠ "missing.txt") := by
  refine ⟨rfl, rfl, rfl, rfl, ?_⟩
  decide

/-- Claim C3 as amended: for a context whose dependency paths all
resolve beneath the context directory to existing files, the archive
handed to the daemon contains exactly the dependency paths (relative to
the context root, in order) plus the Dockerfile — no extras, no
omissions — and every entry's owner is uid 0 / gid 0.  `relDeps` are
the dependency paths relative to the context root; the parser reports
them joined onto the context directory. -/
theorem C3_archive_exact_membership_and_ownership
    (env : BuildEnv) (opts : BuildOptions) (fs : List String)
    (relDeps : List String) (f : String) (ac : AuthConfigs)
    (hauth : env.getAllAuthConfigs = .ok ac)
    (hopen : env.openDockerfile (filepathJoin opts.contextDir opts.dockerfile) =
        .ok f)
    (hdeps : (env.getDockerfileDependencies opts.contextDir f).1 =
        relDeps.map (fun d => opts.contextDir ++ ("/" ++ d)))
    (htar : env.tarWithOptions = fun _ topts => tarWithOptionsModel fs topts)
    (hmem : ∀ d ∈ relDeps, fs.contains d = true)
    (hdfname : relName opts.dockerfile = opts.dockerfile)
    (hdf : fs.contains opts.dockerfile = true) :
    (RunBuild env opts).daemonCalls =
      [DaemonCall.imageBuild
        ((relDeps ++ [opts.dockerfile]).map (fun n => ⟨n, 0, 0⟩))
        ⟨[opts.imageName], opts.dockerfile, opts.buildArgs, ac⟩] := by
  have htrim : (env.getDockerfileDependencies opts.contextDir f).1.map
      (fun p => trimPrefix p opts.contextDir) = relDeps.map (fun d => "/" ++ d) := by
    rw [hdeps, List.map_map]
    apply List.map_congr_left
    intro d _
    exact trimPrefix_append opts.contextDir ("/" ++ d)
  have harchive : tarWithOptionsModel fs
      ⟨some ⟨0, 0⟩, (relDeps.map (fun d => "/" ++ d)) ++ [opts.dockerfile]⟩ =
      .ok ((relDeps ++ [opts.dockerfile]).map (fun n => (⟨n, 0, 0⟩ : TarEntry))) := by
    unfold tarWithOptionsModel
    rw [List.filterMap_append, List.filterMap_map]
    rw [filterMap_eq_map_of_forall _ (fun n => (⟨n, 0, 0⟩ : TarEntry)) relDeps
      (fun d hd => by
        show (if fs.contains (relName ("/" ++ d)) = true then _ else none) = _
        rw [relName_slash d, if_pos (hmem d hd)]
        rfl)]
    rw [List.filterMap_cons]
    show _ = Except.ok ((relDeps ++ [opts.dockerfile]).map _)
    rw [List.map_append]
    simp only [relName_slash, hdfname, hdf]
    simp
  simp only [RunBuild, hauth, hopen, htar, htrim, harchive]
  split <;> rfl

/-- Claim C3 witness: a context with two dependency files and the
Dockerfile; the daemon receives the three-entry archive, all entries
owned by uid 0 / gid 0. -/
theorem C3_witness :
    (RunBuild
      ⟨.ok [("gcr.io", "tok")], fun _ => .ok "FROM scratch",
       fun _ _ => (["/ctx/a.txt", "/ctx/lib/b.txt"], none),
       fun _ topts => tarWithOptionsModel ["Dockerfile", "a.txt", "lib/b.txt"] topts,
       fun _ _ => .ok []⟩
      ⟨"img", "Dockerfile", "/ctx", []⟩).daemonCalls =
      [DaemonCall.imageBuild
        ((["a.txt", "lib/b.txt"] ++ ["Dockerfile"]).map (fun n => ⟨n, 0, 0⟩))
        ⟨["img"], "Dockerfile", [], [("gcr.io", "tok")]⟩] :=
  C3_archive_exact_membership_and_ownership
    ⟨.ok [("gcr.io", "tok")], fun _ => .ok "FROM scratch",
     fun _ _ => (["/ctx/a.txt", "/ctx/lib/b.txt"], none),
     fun _ topts => tarWithOptionsModel ["Dockerfile", "a.txt", "lib/b.txt"] topts,
     fun _ _ => .ok []⟩
    ⟨"img", "Dockerfile", "/ctx", []⟩
    ["Dockerfile", "a.txt", "lib/b.txt"] ["a.txt", "lib/b.txt"]
    "FROM scratch" [("gcr.io", "tok")]
    rfl rfl (by decide) rfl (by decide) (by decide) (by decide)

end SkaffoldDocker
